import Mathlib

/-!
Verification development for the DF_NLP `api` module (DF_NLP/api.py):
a shallow embedding of the XML pre-filter (`_process_xml`), the recursive
text extractor (`_process_def_list`, `_process_paragraph`,
`_process_section`, `process`) and the abstract extractors
(`get_elsevier_abstract`, `get_springer_abstract`, `get_ieee_abstract`),
together with theorems settling the specification claims about them.

Python's `re.sub` is embedded by a small executable regular-expression
engine with Python's backtracking preference order (leftmost match,
greedy/lazy quantifiers, left-biased alternation).  All recursive
functions are fuel-indexed with structural recursion on the fuel so that
the kernel can evaluate them on concrete inputs; the fuel supplied by the
top-level wrappers is always sufficient for the inputs considered.
-/

/-- The apostrophe character (used in replacement strings of the pre-filter). -/
def apoC : Char := Char.ofNat 39

/-- The apostrophe as a one-character string. -/
def apoS : String := String.singleton apoC

/-- The non-breaking space character U+00A0. -/
def nbspC : Char := Char.ofNat 160

/-- Python regex `\w` on the ASCII range used by the repository's documents. -/
def wordChar (c : Char) : Bool :=
  (('a' ≤ c && c ≤ 'z') || ('A' ≤ c && c ≤ 'Z') || ('0' ≤ c && c ≤ '9') || c = '_')

/-- Python regex `\s`: space, tab, newline, carriage return, vertical tab, form feed. -/
def spaceChar (c : Char) : Bool :=
  (c = ' ' || c = '\t' || c = '\n' || c = '\r' || c = Char.ofNat 11 || c = Char.ofNat 12)

/-- Regular expressions, with lazy/greedy star distinguished (as in Python `re`). -/
inductive Re where
  | eps : Re
  | chr : Char → Re
  | cls : (Char → Bool) → Re
  | seq : Re → Re → Re
  | alt : Re → Re → Re
  | opt : Re → Re
  | star : Re → Bool → Re
deriving Inhabited

/-- Backtracking matcher with Python's preference order.  `M f re s k`
tries to match `re` at the start of `s`, calling the continuation `k` on the
rest of the input for each candidate match, in preference order; the first
success wins.  Fuel-indexed (structurally) so the kernel can evaluate it. -/
def M : Nat → Re → List Char → (List Char → Option (List Char)) → Option (List Char)
  | 0, _, _, _ => none
  | _ + 1, .eps, s, k => k s
  | _ + 1, .chr c, s, k =>
    match s with
    | [] => none
    | c1 :: s1 => if c1 = c then k s1 else none
  | _ + 1, .cls p, s, k =>
    match s with
    | [] => none
    | c1 :: s1 => if p c1 then k s1 else none
  | f + 1, .seq a b, s, k => M f a s (fun t => M f b t k)
  | f + 1, .alt a b, s, k => (M f a s k).orElse (fun _ => M f b s k)
  | f + 1, .opt a, s, k => (M f a s k).orElse (fun _ => k s)
  | f + 1, .star a lzy, s, k =>
    let iter : Option (List Char) :=
      M f a s (fun t => if t.length < s.length then M f (.star a lzy) t k else none)
    if lzy then (k s).orElse (fun _ => iter) else iter.orElse (fun _ => k s)

/-- Size of a regular expression (used to compute a sufficient matcher fuel). -/
def rsize : Re → Nat
  | .eps => 1
  | .chr _ => 1
  | .cls _ => 1
  | .seq a b => rsize a + rsize b + 1
  | .alt a b => rsize a + rsize b + 1
  | .opt a => rsize a + 1
  | .star a _ => rsize a + 1

/-- Fuel sufficient for any match attempt of `re` on `s`. -/
def mFuel (re : Re) (s : List Char) : Nat := (s.length + 2) * (rsize re + 2)

/-- `re.sub`: replace every (leftmost, non-overlapping) match of `re` in `s`
by `repl`, scanning left to right, as Python's `re.sub` does.  `mf` is the
matcher fuel used at every position (computed once by `pySub`). -/
def subAll (mf : Nat) : Nat → Re → List Char → List Char → List Char
  | 0, _, _, _ => []
  | f + 1, re, repl, s =>
    match M mf re s some with
    | some rest =>
      if rest.length < s.length then repl ++ subAll mf f re repl rest
      else
        match s with
        | [] => repl
        | c :: s1 => repl ++ c :: subAll mf f re repl s1
    | none =>
      match s with
      | [] => []
      | c :: s1 => c :: subAll mf f re repl s1

/-- String-level `re.sub`. -/
def pySub (re : Re) (repl : String) (s : String) : String :=
  ⟨subAll (mFuel re s.data) (s.data.length + 1) re repl.data s.data⟩

/-- Concatenation of a list of regular expressions. -/
def rcat (l : List Re) : Re := l.foldr Re.seq Re.eps

/-- Literal string as a regular expression. -/
def rstr (s : String) : Re := rcat (s.data.map Re.chr)

/-- Character membership in a literal set given as a string. -/
def inStr (s : String) (c : Char) : Bool := s.data.contains c

/-- Character class built from a literal set plus (optionally) `\w`. -/
def clsOf (extra : String) (useW : Bool) : Re :=
  Re.cls (fun c => (useW && wordChar c) || inStr extra c)

/-- Python `.` (any character except newline). -/
def dotC : Re := Re.cls (fun c => c ≠ '\n')

/-- Lazy `+` (Python `+?`). -/
def rplusL (r : Re) : Re := Re.seq r (Re.star r true)

/-- Greedy `+`. -/
def rplus (r : Re) : Re := Re.seq r (Re.star r false)

/-- Greedy `*`. -/
def rstarG (r : Re) : Re := Re.star r false

/-- Regex `</?` (open angle bracket, optional slash). -/
def rOC : Re := Re.seq (Re.chr '<') (Re.opt (Re.chr '/'))

/-- Regex `(ce:)?`. -/
def ceOpt : Re := Re.opt (rstr "ce:")

/-- Class `[ \w="]`. -/
def cW1 : Re := clsOf " =\"" true

/-- Class `[ \w=".]`. -/
def cW2 : Re := clsOf " =\"." true

/-- Class `[- \w=".]`. -/
def cW3 : Re := clsOf "- =\"." true

/-- Class `[- \w="]`. -/
def cW4 : Re := clsOf "- =\"" true

/-- The large URL-ish class `[- \w=":/.%@#?&;,\[\]()~+*!\'$]`. -/
def bigCls : Re := clsOf ("- =\":/.%@#?&;,[]()~+*!$" ++ apoS) true

/-- Class `[- \w=":/.]`. -/
def cW5 : Re := clsOf "- =\":/." true

/-- Class `[ \w=":/.]`. -/
def cW6 : Re := clsOf " =\":/." true

/-- Optional single space. -/
def spOpt : Re := Re.opt (Re.chr ' ')

/-- The ordered list of `re.sub` rules of `_process_xml`, in source order. -/
def rules : List (Re × String) := [
  (rcat [Re.chr '\n', rstarG (Re.cls spaceChar)], " "),
  (rcat [rstr "<body>", rplusL dotC, rstr "<body>"], "<body>"),
  (rcat [rstr "</body>", rplusL dotC, rstr "</body>"], "</body>"),
  (rcat [rOC, rstr "fn", rstarG cW1, Re.chr '>'], ""),
  (rcat [rstr "<ce:float-anchor", rstarG cW1, rstr "/>"], ""),
  (rcat [rOC, rstr "ext-link", rstarG bigCls, Re.chr '>'], ""),
  (rcat [rstr "<ce:hsp", rstarG cW2, rstr "/>"], ""),
  (rcat [rOC, ceOpt, rstr "bold", Re.chr '>'], ""),
  (rcat [rOC, rstr "uri", rstarG bigCls, Re.chr '>'], ""),
  (rcat [rOC, ceOpt, rstr "italic", Re.chr '>'], ""),
  (rcat [rOC, ceOpt, rstr "monospace", Re.chr '>'], ""),
  (rcat [spOpt, Re.chr '<', ceOpt, rstr "sup", rstarG cW1, Re.chr '>', spOpt], "^"),
  (rcat [spOpt, Re.chr '<', ceOpt, Re.alt (rstr "inf") (rstr "sub"),
         Re.opt (rcat [Re.chr ' ', rstarG cW1]), Re.chr '>', spOpt], "_"),
  (rcat [rstr "</", ceOpt, Re.alt (rstr "sup") (Re.alt (rstr "inf") (rstr "sub")),
         Re.chr '>'], ""),
  (rcat [rOC, rstr "ce:small-caps", Re.chr '>'], ""),
  (rcat [rstr "<ce:textbox", rstarG cW1, Re.chr '>', rplusL dotC, rstr "</ce:textbox>"], ""),
  (rcat [rOC, rstr "ce:enunciation", rstarG cW1, Re.chr '>'], ""),
  (rcat [rOC, rstr "ce:underline", Re.chr '>'], ""),
  (rcat [rOC, rstr "ce:sans-serif", Re.chr '>'], ""),
  (rcat [rstr "<ce:vsp", rstarG cW2, rstr "/>"], ""),
  (rcat [rOC, rstr "sc", Re.chr '>'], ""),
  (rcat [rOC, rstr "ce:cross-out", Re.chr '>'], ""),
  (rstr "<ce:glyph name=\"sbnd\"/>", "-"),
  (rcat [rstr "<ce:anchor", rstarG cW1, rstr "/>"], ""),
  (rcat [rOC, rstr "boxed-text", rstarG cW1, Re.chr '>'], ""),
  (rcat [Re.chr '<', Re.alt (rstr "def") (rstr "term"), rstr "-head>", rplusL dotC,
         rstr "</", Re.alt (rstr "def") (rstr "term"), rstr "-head>"], ""),
  (rcat [rstr "<index-term", rstarG cW1, Re.chr '>', rplusL dotC, rstr "</index-term>"], ""),
  (Re.chr nbspC, " "),
  (rcat [rOC, rstr "ce:cross-ref", Re.opt (Re.chr 's'), rstarG cW3, Re.chr '>'], ""),
  (rcat [Re.opt (rstr "&gt;"), rOC, rstr "ce:inter-ref", rstarG bigCls, Re.chr '>',
         Re.opt (rstr "&lt;")], ""),
  (rcat [rOC, rstr "ce:intra-ref", rstarG bigCls, Re.chr '>'], ""),
  (rcat [rOC, rstr "xref", rstarG cW3, Re.opt (Re.chr '/'), Re.chr '>'], " "),
  (rcat [rstr "<ce:footnote ", rstarG cW1, Re.chr '>', rplusL dotC, rstr "</ce:footnote>"], ""),
  (rcat [rstr "<ce:displayed-quote", rstarG cW3, Re.chr '>', spOpt,
         rstr "<ce:simple-para", rstarG cW3, Re.chr '>'], apoS),
  (rcat [rstr "</ce:simple-para>", spOpt, rstr "<ce:simple-para", rstarG cW3, Re.chr '>'], ""),
  (rcat [rstr "</ce:simple-para>", spOpt, rstr "</ce:displayed-quote>"], apoS),
  (rcat [rstr "</ce:simple-para>", spOpt, rstr "<ce:source>"], apoS),
  (rcat [rstr "</ce:source>", spOpt, rstr "</ce:displayed-quote>"], ""),
  (rstr "<disp-quote><p>", "<p>" ++ apoS),
  (rstr "</p></disp-quote>", apoS ++ "</p>"),
  (rcat [rOC, rstr "ce:grant-sponsor", rstarG bigCls, Re.chr '>'], ""),
  (rcat [rOC, rstr "ce:grant-number", rstarG cW1, Re.chr '>'], ""),
  (rcat [rstr "<statement", rstarG cW4, Re.chr '>'], "<p>"),
  (rstr "</statement>", "</p>"),
  (rcat [rstr "<mml:math", rstarG cW2, Re.chr '>', rplusL dotC, rstr "</mml:math>"], "[Formula]"),
  (rcat [rOC, rstr "ce:display", Re.chr '>'], ""),
  (rcat [rstr "<disp-formula", rstarG cW1, Re.chr '>', rplusL dotC, rstr "</disp-formula>"],
   "[Formula]"),
  (rcat [rstr "<ce:formula", rstarG cW1, Re.chr '>', rplusL dotC, rstr "</ce:formula>",
         rstarG (rcat [rstarG (Re.chr ' '), rstr "</ce:formula>"])], "[Formula]"),
  (rcat [rstr "<inline-formula", rstarG cW1, Re.chr '>', rplusL dotC, rstr "</inline-formula>"],
   "[Formula]"),
  (rcat [rstr "<disp-formula", rstarG cW4, Re.chr '>', rplusL dotC, rstr "</disp-formula>"],
   "[Formula]"),
  (rcat [rstr "<ce:inline-figure", rstarG cW2, Re.chr '>', rplusL dotC,
         rstr "</ce:inline-figure>"], "[Inline Fig.]"),
  (rcat [rstr "<ce:figure", rstarG cW1, Re.chr '>', rplusL dotC, rstr "</ce:figure>"], "[Fig.]"),
  (rcat [rstr "<fig", rstarG cW1, Re.chr '>', rplusL dotC, rstr "</fig>"], "[Fig.]"),
  (rcat [rstr "<ce:floats>", rplusL dotC, rstr "</ce:floats>"], ""),
  (rcat [rstr "<graphic", rstarG cW5, Re.chr '>'], "[Graphic]"),
  (rcat [rstr "<opening-graphic>", rplusL dotC, rstr "</opening-graphic>"], ""),
  (rcat [rstr "<inline-graphic", rstarG bigCls, Re.chr '>'], "[Graphic]"),
  (rcat [rstr "<algorithm", rstarG cW4, Re.chr '>', rplusL dotC, rstr "</algorithm>"], "[Algo]"),
  (rcat [rstr "<ce:table", rstarG cW6, Re.chr '>', rplusL dotC, rstr "</ce:table>"], "[Table]"),
  (rcat [rstr "<table-wrap", rstarG cW1, Re.chr '>', rplusL dotC, rstr "</table-wrap>"],
   "[Table]"),
  (rcat [rstr "<app", rstarG cW1, Re.chr '>', rplusL dotC, rstr "</app>"], ""),
  (rcat [rstr "<ack>", rplusL dotC, rstr "</ack>"], ""),
  (rplus (Re.chr ' '), " ")]

/-- `_process_xml`: the ordered pre-filter pipeline from DF_NLP/api.py. -/
def processXml (s : String) : String :=
  rules.foldl (fun acc r => pySub r.1 r.2 acc) s

set_option maxRecDepth 100000
set_option maxHeartbeats 16000000

example : processXml "a  b" = "a b" := by decide

example : processXml "<body>a<body>b<body>" = "<body>b<body>" := by decide

/-! ## The XML element tree (Python `xml.etree.ElementTree`) -/

/-- A parsed XML element: tag (namespace-expanded as in ElementTree), the
text appearing before the first child (`None` when empty, as in
ElementTree), and the list of child elements in document order.  Tail text
is never read by the extractor and is not recorded. -/
structure Elem where
  tag : String
  text : Option String
  children : List Elem
deriving Inhabited

/-- Python `f"{x}"` where `x` is a `str`-or-`None` value: `None` prints
as the four-character string `"None"`. -/
def pyStr : Option String → String
  | none => "None"
  | some s => s

/-- The Elsevier common namespace in ElementTree's expanded form
(`ns` in DF_NLP/api.py). -/
def nsStr : String := "\x7bhttp://www.elsevier.com/xml/common/dtd\x7d"

/-- `f"{ns}t"`: the Elsevier-namespaced spelling of tag `t`. -/
def nsTag (t : String) : String := nsStr ++ t

/-- All proper descendants of an element in document (preorder) order,
as returned by ElementTree's `.//` searches.  Fuel-indexed. -/
def descAll : Nat → Elem → List Elem
  | 0, _ => []
  | f + 1, e => e.children.flatMap (fun c => c :: descAll f c)

/-- `e.find(t)` for a plain tag `t`: first direct child with that tag. -/
def childNamed (t : String) (e : Elem) : Option Elem :=
  e.children.find? (fun c => c.tag == t)

/-- `e.find(".//t")`: first proper descendant with tag `t`, document order. -/
def findDesc (f : Nat) (t : String) (e : Elem) : Option Elem :=
  (descAll f e).find? (fun c => c.tag == t)

/-- `e.find("./def/p")`: first `p` child of a `def` child. -/
def findDefP (e : Elem) : Option Elem :=
  ((e.children.filter (fun d => d.tag == "def")).flatMap
    (fun d => d.children.filter (fun p => p.tag == "p"))).head?

/-! ## XML parsing (`ET.fromstring`) -/

/-- Characters allowed in tag/attribute names by the documents considered. -/
def tagNameChar (c : Char) : Bool :=
  c.isAlpha || c.isDigit || c = '-' || c = '_' || c = ':' || c = '.'

/-- Decode one XML entity reference after a `&`. -/
def entity1 (s : List Char) : Option (Char × List Char) :=
  match s with
  | 'a' :: 'm' :: 'p' :: ';' :: r => some ('&', r)
  | 'l' :: 't' :: ';' :: r => some ('<', r)
  | 'g' :: 't' :: ';' :: r => some ('>', r)
  | 'q' :: 'u' :: 'o' :: 't' :: ';' :: r => some ('"', r)
  | 'a' :: 'p' :: 'o' :: 's' :: ';' :: r => some (apoC, r)
  | _ => none

/-- Read character data up to the next `<` (or end of input), decoding
entity references; an undecodable `&` is a parse error. -/
def readText : Nat → List Char → Option (List Char × List Char)
  | 0, _ => none
  | f + 1, s =>
    match s with
    | [] => some ([], [])
    | '<' :: _ => some ([], s)
    | '&' :: r =>
      match entity1 r with
      | none => none
      | some (c, r2) => (readText f r2).map (fun p => (c :: p.1, p.2))
    | c :: r => (readText f r).map (fun p => (c :: p.1, p.2))

/-- Parse `name="value"` attribute pairs; stops before `/` or `>`. -/
def parseAttrs : Nat → List Char → Option (List (String × String) × List Char)
  | 0, _ => none
  | f + 1, s =>
    let s1 := s.dropWhile spaceChar
    match s1 with
    | c :: _ =>
      if tagNameChar c then
        let p := s1.span tagNameChar
        match p.2 with
        | '=' :: '"' :: r2 =>
          let q := r2.span (fun d => d ≠ '"')
          match q.2 with
          | '"' :: r3 =>
            match parseAttrs f r3 with
            | some (rest, r4) => some ((⟨p.1⟩, ⟨q.1⟩) :: rest, r4)
            | none => none
          | _ => none
        | _ => none
      else some ([], s1)
    | [] => some ([], [])

/-- Extend a namespace environment with the `xmlns` declarations among the
attributes of the current element (innermost declarations first). -/
def extendEnv (env : List (String × String)) (attrs : List (String × String)) :
    List (String × String) :=
  attrs.foldl
    (fun e a =>
      match a.1.data with
      | 'x' :: 'm' :: 'l' :: 'n' :: 's' :: rest =>
        match rest with
        | [] => ("", a.2) :: e
        | ':' :: p => (String.mk p, a.2) :: e
        | _ => e
      | _ => e)
    env

/-- Split a character list at colons. -/
def splitColon : List Char → List (List Char)
  | [] => [[]]
  | ':' :: r => [] :: splitColon r
  | c :: r =>
    match splitColon r with
    | [] => [[c]]
    | g :: gs => (c :: g) :: gs

/-- Resolve a raw tag name against the namespace environment, producing
ElementTree's `{uri}local` expanded form; an unbound prefix fails. -/
def resolveTag (env : List (String × String)) (raw : String) : Option String :=
  match splitColon raw.data with
  | [n] =>
    match env.lookup "" with
    | some u => some ("\x7b" ++ u ++ "\x7d" ++ String.mk n)
    | none => some (String.mk n)
  | [p, l] =>
    match env.lookup (String.mk p) with
    | some u => some ("\x7b" ++ u ++ "\x7d" ++ String.mk l)
    | none => none
  | _ => none

/-- Parse a sequence of sibling elements (with interleaved tail text, which
the extractor never reads) up to the closing tag named `close` (or, when
`close` is `none`, up to the end of input).  Elements are parsed in place:
`<name attrs/>` or `<name attrs>text children</name>`, with namespace
declarations extending the environment for the element's own tag and its
subtree.  Fuel-indexed structurally. -/
def parseNodes : Nat → List (String × String) → Option (List Char) → List Char →
    Option (List Elem × List Char)
  | 0, _, _, _ => none
  | f + 1, env, close, s =>
    match s with
    | [] => match close with
            | none => some ([], [])
            | some _ => none
    | '<' :: '/' :: r2 =>
      match close with
      | none => none
      | some nm =>
        let p := r2.span tagNameChar
        match p.2 with
        | '>' :: r4 => if p.1 == nm then some ([], r4) else none
        | _ => none
    | '<' :: s1 =>
      let p := s1.span tagNameChar
      if p.1.isEmpty then none
      else
        match parseAttrs f p.2 with
        | none => none
        | some (attrs, s3) =>
          let env2 := extendEnv env attrs
          match resolveTag env2 ⟨p.1⟩ with
          | none => none
          | some tg =>
            match s3 with
            | '/' :: '>' :: s4 =>
              match readText f s4 with
              | none => none
              | some (_, s5) =>
                match parseNodes f env close s5 with
                | none => none
                | some (sibs, s6) => some (⟨tg, none, []⟩ :: sibs, s6)
            | '>' :: s4 =>
              match readText f s4 with
              | none => none
              | some (txt, s5) =>
                match parseNodes f env2 (some p.1) s5 with
                | none => none
                | some (kids, s6) =>
                  match readText f s6 with
                  | none => none
                  | some (_, s7) =>
                    match parseNodes f env close s7 with
                    | none => none
                    | some (sibs, s8) =>
                      some (⟨tg, if txt.isEmpty then none else some ⟨txt⟩, kids⟩ :: sibs, s8)
            | _ => none
    | _ => none

/-- `ET.fromstring`: parse a whole document into its root element. -/
def parseXML (s : String) : Option Elem :=
  match parseNodes (s.data.length + 2) [] none (s.data.dropWhile spaceChar) with
  | some ([e], _) => some e
  | _ => none

example :
    parseXML "<a x=\"1\"><b/>t<c>u</c></a>"
    = some ⟨"a", none, [⟨"b", none, []⟩, ⟨"c", some "u", []⟩]⟩ := by rfl

example :
    parseXML "<t xmlns:ce=\"http://www.elsevier.com/xml/common/dtd\"><ce:para/></t>"
    = some ⟨"t", none, [⟨nsTag "para", none, []⟩]⟩ := by rfl

/-! ## The recursive extractor -/

/-- Python exceptions raised by the `api` module (plus the two artifacts of
the embedding: parse failure is surfaced as a value, and exhausted fuel —
never reached at the fuel supplied by the wrappers — as `fuelOut`). -/
inductive PyErr where
  | valueError (msg : String)
  | nameError (msg : String)
  | attributeError
  | typeError
  | parseFail
  | fuelOut
deriving DecidableEq, Inhabited, Repr

/-- The publisher selector (`Api` in DF_NLP/api.py). -/
inductive Api where
  | elsevier
  | springer
  | ieee
deriving DecidableEq, Inhabited, Repr

/-- Python `"\n".join(l)`. -/
def joinNl : List String → String
  | [] => ""
  | [x] => x
  | x :: xs => x ++ "\n" ++ joinNl xs

/-- Regex `( *\n *)+` used by `_process_paragraph`'s post-processing. -/
def reNlRun : Re := rplus (rcat [rstarG (Re.chr ' '), Re.chr '\n', rstarG (Re.chr ' ')])

/-- `re.sub("( *\n *)+", " ", s)`. -/
def collapseNl (s : String) : String := pySub reNlRun " " s

/-- `re.sub("^ ", "", s)`: strip one leading space. -/
def stripLead (s : String) : String :=
  match s.data with
  | ' ' :: r => ⟨r⟩
  | _ => s

/-- The paragraph post-processing applied after the child loop of
`_process_paragraph`. -/
def paraPost (s : String) : String := stripLead (collapseNl s)

/-- One iteration of the `_process_def_list` child loop. -/
def dstep (txt : String) (c : Elem) : Except PyErr String :=
  if c.tag == nsTag "def-term" then .ok (txt ++ "\n- " ++ pyStr c.text ++ ": ")
  else if c.tag == nsTag "def-description" then .ok (txt ++ pyStr c.text)
  else if c.tag == "def-item" then
    match childNamed "term" c with
    | none => .error .attributeError
    | some tm =>
      match findDefP c with
      | none => .error .attributeError
      | some pp => .ok (txt ++ "- " ++ pyStr tm.text ++ ": " ++ pyStr pp.text)
  else .error (.valueError ("Unknown def-list tag: " ++ c.tag))

/-- The `_process_def_list` child loop. -/
def dGo : List Elem → String → Except PyErr String
  | [], t => .ok t
  | c :: cs, t =>
    match dstep t c with
    | .ok t2 => dGo cs t2
    | .error e => .error e

/-- `_process_def_list`. -/
def processDefList (dl : Elem) (txt : String) : Except PyErr String :=
  dGo dl.children txt

/-- The items `child.findall(f".//{tag}")` of a `list` element, rendered as
`"- {i.text}"` lines. -/
def listLines (f : Nat) (t : String) (c : Elem) : List String :=
  ((descAll f c).filter (fun i => i.tag == t)).map (fun i => "- " ++ pyStr i.text)

/-- The child loop of `_process_paragraph`: dispatch on each child's tag,
appending a newline after every handled (non-label) child.  Fuel-indexed
structurally; every recursive call decrements the fuel. -/
def ppGo : Nat → List Elem → String → Except PyErr String
  | 0, _, _ => .error .fuelOut
  | _ + 1, [], txt => .ok txt
  | f + 1, c :: cs, txt =>
    if c.tag == nsTag "label" || c.tag == "label" then
      ppGo f cs txt
    else if c.tag == nsTag "list" then
      ppGo f cs (txt ++ joinNl (listLines f (nsTag "para") c) ++ "\n")
    else if c.tag == "list" then
      ppGo f cs (txt ++ joinNl (listLines f "p" c) ++ "\n")
    else if c.tag == nsTag "def-list" || c.tag == "def-list" then
      match processDefList c txt with
      | .ok r => ppGo f cs (r ++ "\n")
      | .error e => .error e
    else if c.tag == nsTag "section-title" || c.tag == "title" then
      ppGo f cs (txt ++ pyStr c.text ++ "\n\n")
    else if c.tag == nsTag "para" || c.tag == "p" then
      match (ppGo f c.children (txt ++ pyStr c.text)).map paraPost with
      | .ok r => ppGo f cs (r ++ "\n")
      | .error e => .error e
    else .error (.valueError ("Unknown paragraph tag: " ++ c.tag))

/-- `_process_paragraph`: own text first, then the child loop, then the
two-phase flatten (collapse newline runs, strip one leading space). -/
def ppElem (f : Nat) (e : Elem) (txt : String) : Except PyErr String :=
  (ppGo f e.children (txt ++ pyStr e.text)).map paraPost

/-- The child loop of `_process_section`. -/
def psGo : Nat → List Elem → String → Except PyErr String
  | 0, _, _ => .error .fuelOut
  | _ + 1, [], txt => .ok txt
  | f + 1, c :: cs, txt =>
    if c.tag == nsTag "label" || c.tag == "label" then
      psGo f cs txt
    else if c.tag == nsTag "section-title" || c.tag == "title" then
      psGo f cs (txt ++ pyStr c.text ++ "\n")
    else if c.tag == nsTag "para" || c.tag == "p" then
      match (ppGo f c.children (txt ++ pyStr c.text)).map paraPost with
      | .ok r => psGo f cs (r ++ "\n")
      | .error e => .error e
    else if c.tag == nsTag "section" || c.tag == "sec" then
      match psGo f c.children txt with
      | .ok r => psGo f cs r
      | .error e => .error e
    else .error (.valueError ("Unknown section tag: " ++ c.tag))

/-- `_process_section`. -/
def psElem (f : Nat) (e : Elem) (txt : String) : Except PyErr String :=
  psGo f e.children txt

/-- The body of one iteration of `process`'s top-level loop: the string
written to the sink for one top-level child (each child is processed with
the empty accumulator `text = str()`), or the error raised. -/
def topStep (f : Nat) (c : Elem) : Except PyErr String :=
  if c.tag == nsTag "section" || c.tag == "sec" then
    (psElem f c "").map (fun r => r ++ "\n")
  else if c.tag == nsTag "para" || c.tag == "p" then
    (ppElem f c "").map (fun r => r ++ "\n")
  else .error (.valueError ("Unknown root tag: " ++ c.tag))

/-- `process`'s top-level loop over the root's children: the list of strings
appended to the sink in order, and the error (if any) that aborted the
loop.  Writes made before the error remain. -/
def topGo : Nat → List Elem → List String × Option PyErr
  | 0, _ => ([], some .fuelOut)
  | _ + 1, [] => ([], none)
  | f + 1, c :: cs =>
    match topStep f c with
    | .ok w => let r := topGo f cs; (w :: r.1, r.2)
    | .error e => ([], some e)

/-- Root location of `process`: Elsevier uses the namespaced `sections`
container, Springer and IEEE the first `body` element. -/
def locateRoot (f : Nat) (api : Api) (root : Elem) : Option Elem :=
  match api with
  | .elsevier => findDesc f (nsTag "sections") root
  | _ => findDesc f "body" root

/-- `process` given the result of locating the publisher root: the
`(not root) or (springer and book-part)` availability check, then the
top-level loop. -/
def processTree (f : Nat) (api : Api) : Option Elem → List String × Option PyErr
  | none => ([], some (.nameError "Full text unavailable!"))
  | some r =>
    if r.children.isEmpty || (api == .springer && (childNamed "book-part" r).isSome) then
      ([], some (.nameError "Full text unavailable!"))
    else topGo f r.children

/-- `process` after parsing: locate the publisher root and continue. -/
def strAfterParse (cleaned : String) (api : Api) : Option Elem → List String × Option PyErr
  | none => ([], some .parseFail)
  | some root =>
    processTree (cleaned.data.length + 1) api
      (locateRoot (cleaned.data.length + 1) api root)

/-- `process`: pre-filter, parse, locate root and extract, returning the
sequence of sink writes together with the aborting error, if any. -/
def processStr (answer : String) (api : Api) : List String × Option PyErr :=
  let cleaned := processXml answer
  strAfterParse cleaned api (parseXML cleaned)

/-! ## Abstract extractors -/

/-- The Dublin-Core description tag searched by `get_elsevier_abstract`. -/
def dcDesc : String := "\x7bhttp://purl.org/dc/elements/1.1/\x7ddescription"

/-- Regex `\n +` of `get_elsevier_abstract`. -/
def reNlSp : Re := rcat [Re.chr '\n', rplus (Re.chr ' ')]

/-- `get_elsevier_abstract` given the located Dublin-Core description:
absent returns Python `None`; present with `None` text raises a TypeError
in `re.sub`; otherwise newline+indentation runs are removed. -/
def elsAfterFind : Option Elem → Except PyErr (Option String)
  | none => .ok none
  | some d =>
    match d.text with
    | none => .error .typeError
    | some t => .ok (some (pySub reNlSp "" t))

/-- `get_elsevier_abstract` after parsing. -/
def elsAfterParse (cleaned : String) : Option Elem → Except PyErr (Option String)
  | none => .error .parseFail
  | some root => elsAfterFind (findDesc (cleaned.data.length + 1) dcDesc root)

/-- `get_elsevier_abstract`: returns `None` (embedded as `none`) when no
Dublin-Core description element exists. -/
def getElsevierAbstract (answer : String) : Except PyErr (Option String) :=
  let cleaned := processXml answer
  elsAfterParse cleaned (parseXML cleaned)

/-- The child loop of `get_springer_abstract`. -/
def aGo : Nat → List Elem → String → Except PyErr String
  | 0, _, _ => .error .fuelOut
  | _ + 1, [], txt => .ok txt
  | f + 1, c :: cs, txt =>
    if c.tag == "title" then aGo f cs txt
    else if c.tag == "sec" then
      match psGo f c.children txt with
      | .ok r => aGo f cs r
      | .error e => .error e
    else if c.tag == "p" then
      match (ppGo f c.children (txt ++ pyStr c.text)).map paraPost with
      | .ok r => aGo f cs r
      | .error e => .error e
    else .error (.valueError ("Unknown root tag: " ++ c.tag))

/-- `get_springer_abstract` given the located abstract element: `if desc:`
is element truthiness, so both an absent and a childless `abstract`
element yield the empty string. -/
def sprAfterFind (cleaned : String) : Option Elem → Except PyErr String
  | none => .ok ""
  | some d =>
    if d.children.isEmpty then .ok ""
    else aGo (cleaned.data.length + 1) d.children ""

/-- `get_springer_abstract` after parsing. -/
def sprAfterParse (cleaned : String) : Option Elem → Except PyErr String
  | none => .error .parseFail
  | some root => sprAfterFind cleaned (findDesc (cleaned.data.length + 1) "abstract" root)

/-- `get_springer_abstract`. -/
def getSpringerAbstract (answer : String) : Except PyErr String :=
  let cleaned := processXml answer
  sprAfterParse cleaned (parseXML cleaned)

/-- `get_ieee_abstract` given the located `./article/abstract` element:
`desc.text if desc is not None else ""`; a present abstract with absent
text returns Python `None` (embedded as `none`). -/
def ieeAfterFind : Option Elem → Except PyErr (Option String)
  | none => .ok (some "")
  | some d => .ok d.text

/-- `get_ieee_abstract` after parsing. -/
def ieeAfterParse : Option Elem → Except PyErr (Option String)
  | none => .error .parseFail
  | some root => ieeAfterFind ((childNamed "article" root).bind (fun a => childNamed "abstract" a))

/-- `get_ieee_abstract`. -/
def getIeeeAbstract (answer : String) : Except PyErr (Option String) :=
  let cleaned := processXml answer
  ieeAfterParse (parseXML cleaned)

/-! ## Machinery: the pre-filter is the identity on markup-free text -/

/-- `mustContain re p = true` guarantees that every string matched by `re`
contains a character satisfying `p` (a conservative syntactic check). -/
def mustContain : Re → (Char → Bool) → Bool
  | .chr c, p => p c
  | .seq a b, p => mustContain a p || mustContain b p
  | .alt a b, p => mustContain a p && mustContain b p
  | _, _ => false

/-- Characters at least one of which must occur in any match of any
pre-filter rule: `<`, newline, space, non-breaking space. -/
def badChar (c : Char) : Bool := c = '<' || c = '\n' || c = ' ' || c = nbspC

theorem M_none_of_k_none :
    ∀ (f : Nat) (re : Re) (s : List Char) (k : List Char → Option (List Char)),
      (∀ t, t <:+ s → k t = none) → M f re s k = none := by
  intro f
  induction f with
  | zero => intro re s k _; rfl
  | succ g ih =>
    intro re s k h
    cases re with
    | eps => exact h s (List.suffix_refl s)
    | chr c =>
      cases s with
      | nil => rfl
      | cons c1 s1 =>
        show (if c1 = c then k s1 else none) = none
        split
        · exact h s1 (List.suffix_cons c1 s1)
        · rfl
    | cls p =>
      cases s with
      | nil => rfl
      | cons c1 s1 =>
        show (if p c1 then k s1 else none) = none
        split
        · exact h s1 (List.suffix_cons c1 s1)
        · rfl
    | seq a b =>
      show M g a s (fun t => M g b t k) = none
      refine ih a s _ (fun t ht => ?_)
      exact ih b t k (fun u hu => h u (hu.trans ht))
    | alt a b =>
      show (M g a s k).orElse (fun _ => M g b s k) = none
      rw [ih a s k h]
      exact ih b s k h
    | opt a =>
      show (M g a s k).orElse (fun _ => k s) = none
      rw [ih a s k h]
      exact h s (List.suffix_refl s)
    | star a lzy =>
      have hiter :
          M g a s (fun t => if t.length < s.length then M g (.star a lzy) t k else none)
            = none := by
        refine ih a s _ (fun t ht => ?_)
        by_cases hlt : t.length < s.length
        · rw [if_pos hlt]
          exact ih (.star a lzy) t k (fun u hu => h u (hu.trans ht))
        · rw [if_neg hlt]
      cases lzy with
      | true =>
        show (k s).orElse
            (fun _ => M g a s
              (fun t => if t.length < s.length then M g (.star a true) t k else none))
          = none
        rw [h s (List.suffix_refl s)]
        exact hiter
      | false =>
        show (M g a s
            (fun t => if t.length < s.length then M g (.star a false) t k else none)).orElse
            (fun _ => k s)
          = none
        rw [hiter]
        exact h s (List.suffix_refl s)

theorem M_none_of_mustContain :
    ∀ (f : Nat) (re : Re) (s : List Char) (k : List Char → Option (List Char))
      (p : Char → Bool), mustContain re p = true →
      s.all (fun c => !p c) = true → M f re s k = none := by
  intro f
  induction f with
  | zero => intros; rfl
  | succ g ih =>
    intro re s k p hm hs
    cases re with
    | eps => simp [mustContain] at hm
    | cls q => simp [mustContain] at hm
    | opt a => simp [mustContain] at hm
    | star a lzy => simp [mustContain] at hm
    | chr c =>
      have hc : p c = true := hm
      cases s with
      | nil => rfl
      | cons c1 s1 =>
        have hc1 : (!p c1) = true := (List.all_eq_true.mp hs) c1 (List.mem_cons_self c1 s1)
        have hne : c1 ≠ c := by
          intro he
          rw [he, hc] at hc1
          exact Bool.noConfusion hc1
        show (if c1 = c then k s1 else none) = none
        rw [if_neg hne]
    | seq a b =>
      rw [show mustContain (.seq a b) p = (mustContain a p || mustContain b p) from rfl,
        Bool.or_eq_true] at hm
      show M g a s (fun t => M g b t k) = none
      rcases hm with hma | hmb
      · exact ih a s _ p hma hs
      · refine M_none_of_k_none g a s _ (fun t ht => ?_)
        have hts : t.all (fun c => !p c) = true := by
          rw [List.all_eq_true] at hs ⊢
          exact fun x hx => hs x (ht.subset hx)
        exact ih b t k p hmb hts
    | alt a b =>
      rw [show mustContain (.alt a b) p = (mustContain a p && mustContain b p) from rfl,
        Bool.and_eq_true] at hm
      show (M g a s k).orElse (fun _ => M g b s k) = none
      rw [ih a s k p hm.1 hs]
      exact ih b s k p hm.2 hs

theorem subAll_id (re : Re) (repl : List Char) (p : Char → Bool)
    (hm : mustContain re p = true) :
    ∀ (n : Nat) (s : List Char) (mf : Nat), s.all (fun c => !p c) = true →
      s.length < n → subAll mf n re repl s = s := by
  intro n
  induction n with
  | zero => intro s mf _ hlen; omega
  | succ m ihm =>
    intro s mf hs hlen
    have hnone : M mf re s some = none := M_none_of_mustContain mf re s some p hm hs
    simp only [subAll, hnone]
    cases s with
    | nil => rfl
    | cons c s1 =>
      have hs1 : s1.all (fun c => !p c) = true := by
        rw [List.all_eq_true] at hs ⊢
        exact fun x hx => hs x (List.mem_cons_of_mem c hx)
      show c :: subAll mf m re repl s1 = c :: s1
      rw [ihm s1 mf hs1 (by simpa using Nat.lt_of_succ_lt_succ hlen)]

theorem pySub_id (re : Re) (repl : String) (p : Char → Bool)
    (hm : mustContain re p = true) (s : String)
    (hs : s.data.all (fun c => !p c) = true) : pySub re repl s = s := by
  show (⟨subAll (mFuel re s.data) (s.data.length + 1) re repl.data s.data⟩ : String) = s
  rw [subAll_id re repl.data p hm (s.data.length + 1) s.data _ hs (Nat.lt_succ_self _)]

theorem foldRules_id :
    ∀ (rs : List (Re × String)), rs.all (fun r => mustContain r.1 badChar) = true →
      ∀ s : String, s.data.all (fun c => !badChar c) = true →
        rs.foldl (fun acc r => pySub r.1 r.2 acc) s = s := by
  intro rs
  induction rs with
  | nil => intros; rfl
  | cons r rest ihr =>
    intro hall s hs
    rw [List.all_cons, Bool.and_eq_true] at hall
    rw [List.foldl_cons, pySub_id r.1 r.2 badChar hall.1 s hs]
    exact ihr hall.2 s hs

theorem rules_mustContain : rules.all (fun r => mustContain r.1 badChar) = true := by decide

theorem processXml_id (s : String) (hs : s.data.all (fun c => !badChar c) = true) :
    processXml s = s :=
  foldRules_id rules rules_mustContain s hs

/-! ## Concrete inputs used by the claims -/

/-- The end-to-end Elsevier document of the specification scenario. -/
def c1doc : String :=
  "<test xmlns:ce=\"http://www.elsevier.com/xml/common/dtd\">"
    ++ "<ce:sections><ce:section><ce:section-title>Title</ce:section-title>"
    ++ "<ce:label>Label</ce:label><ce:para/></ce:section></ce:sections></test>"

/-- What `process` actually writes for `c1doc`: the empty paragraph's
`None` text bleeds into the output and the title's newline is collapsed. -/
theorem c1doc_eval : processStr c1doc .elsevier = (["Title None\n\n"], none) := by rfl

/-- A definition list whose (real) processing by `_process_def_list`
contributes exactly the string `" [def-list]"`. -/
def c5dl : Elem :=
  ⟨nsTag "def-list", none, [⟨nsTag "def-description", some " [def-list]", []⟩]⟩

/-- The paragraph of the list-flattening scenario: own text, an Elsevier
list with two items, a def-list contributing `" [def-list]"`, a nested
title and a nested paragraph. -/
def c5para : Elem :=
  ⟨nsTag "para", some "Lorem ipsum",
    [⟨nsTag "list", none,
      [⟨"item", none, [⟨nsTag "para", some "List_item1", []⟩]⟩,
       ⟨"item", none, [⟨nsTag "para", some "List_item2", []⟩]⟩]⟩,
     c5dl,
     ⟨nsTag "section-title", some "Title", []⟩,
     ⟨nsTag "para", some "Lorem ipsum", []⟩]⟩

/-- A structurally valid Elsevier document with one empty section and one
empty paragraph under the namespaced sections root. -/
def c4elsdoc : String :=
  "<test xmlns:ce=\"http://www.elsevier.com/xml/common/dtd\">"
    ++ "<ce:sections><ce:section></ce:section><ce:para></ce:para></ce:sections></test>"

/-- An Elsevier document whose first top-level child is a valid section and
whose second top-level child has an unrecognized tag. -/
def c8doc : String :=
  "<test xmlns:ce=\"http://www.elsevier.com/xml/common/dtd\">"
    ++ "<ce:sections><ce:section><ce:section-title>T</ce:section-title></ce:section>"
    ++ "<ce:wrong/></ce:sections></test>"

/-- The first top-level child of `c8doc`'s sections root. -/
def c8sec : Elem := ⟨nsTag "section", none, [⟨nsTag "section-title", some "T", []⟩]⟩

/-- The second (unrecognized) top-level child of `c8doc`'s sections root. -/
def c8wrong : Elem := ⟨nsTag "wrong", none, []⟩

/-- Does a written string end with a newline? -/
def endsNl (w : String) : Bool := w.data.getLast? == some '\n'

/-- Does `pat` occur at the start of `s`? -/
def startsL : List Char → List Char → Bool
  | [], _ => true
  | _ :: _, [] => false
  | p :: ps, c :: cs2 => p = c && startsL ps cs2

/-- Does `pat` occur anywhere inside `s`? -/
def containsSub (pat : List Char) : List Char → Bool
  | [] => startsL pat []
  | c :: rest => startsL pat (c :: rest) || containsSub pat rest

/-! ## Claim theorems -/

/-- C1 counterexample: on the specification's end-to-end Elsevier document,
`process` does not write `"Title\n \n"`. -/
theorem c1_counterexample :
    processStr c1doc .elsevier ≠ (["Title\n \n"], none) := by
  rw [c1doc_eval]
  decide

/-- C1 (amended): for the end-to-end Elsevier document, `process` performs a
single write whose exact content is `"Title None\n\n"` — the title newline
is collapsed to a space and the empty paragraph contributes the literal
string `"None"` — it completes without error, and the string `"Label"` does
not occur anywhere in the written output. -/
theorem c1_amended :
    processStr c1doc .elsevier = (["Title None\n\n"], none)
      ∧ containsSub "Label".data "Title None\n\n".data = false :=
  ⟨c1doc_eval, by decide⟩

/-- C2 counterexample: in the def-list context an element whose child is a
(namespaced) `label` is NOT processed without error — the label child is
treated as an unknown def-list tag and raises `ValueError`. -/
theorem c2_counterexample :
    processDefList ⟨nsTag "def-list", none, [⟨nsTag "label", some "Label", []⟩]⟩ ""
      = .error (.valueError ("Unknown def-list tag: " ++ nsTag "label")) := by rfl

/-- C2 (amended): in the paragraph and section contexts a `label` child
(namespaced or generic) is skipped entirely — the rest of the computation
does not depend on the label element, so no trace of its text can appear —
but in the def-list context a label child raises an UnknownTagError naming
the offending tag. -/
theorem c2_amended :
    (∀ (f : Nat) (c : Elem) (cs : List Elem) (txt : String),
        c.tag = nsTag "label" ∨ c.tag = "label" →
        ppGo (f + 1) (c :: cs) txt = ppGo f cs txt)
    ∧ (∀ (f : Nat) (c : Elem) (cs : List Elem) (txt : String),
        c.tag = nsTag "label" ∨ c.tag = "label" →
        psGo (f + 1) (c :: cs) txt = psGo f cs txt)
    ∧ (∀ (c : Elem) (cs : List Elem) (txt : String),
        c.tag = nsTag "label" ∨ c.tag = "label" →
        dGo (c :: cs) txt = .error (.valueError ("Unknown def-list tag: " ++ c.tag))) := by
  refine ⟨?_, ?_, ?_⟩
  · intro f c cs txt h
    obtain ⟨t, tx, ch⟩ := c
    rcases h with h | h <;> (subst h; rfl)
  · intro f c cs txt h
    obtain ⟨t, tx, ch⟩ := c
    rcases h with h | h <;> (subst h; rfl)
  · intro c cs txt h
    obtain ⟨t, tx, ch⟩ := c
    rcases h with h | h <;> (subst h; rfl)

/-- Witness for C2 (amended), at concrete label elements in all three
contexts. -/
theorem c2_witness :
    ppGo 1 [⟨nsTag "label", some "Lab", []⟩] "t" = ppGo 0 [] "t"
    ∧ psGo 1 [⟨"label", some "Lab", []⟩] "t" = psGo 0 [] "t"
    ∧ dGo [⟨nsTag "label", some "Lab", []⟩] ""
        = .error (.valueError ("Unknown def-list tag: " ++ nsTag "label")) :=
  ⟨c2_amended.1 0 ⟨nsTag "label", some "Lab", []⟩ [] "t" (Or.inl rfl),
   c2_amended.2.1 0 ⟨"label", some "Lab", []⟩ [] "t" (Or.inr rfl),
   c2_amended.2.2 ⟨nsTag "label", some "Lab", []⟩ [] "" (Or.inl rfl)⟩

/-- C3 counterexample: a section child with tag `"label"` — a tag that is
not in the claim's enumerated section vocabulary — is silently skipped
(the call returns successfully) instead of raising an UnknownTagError. -/
theorem c3_counterexample :
    psGo 2 [⟨"label", some "Lab", []⟩] "" = .ok "" := by rfl

/-- C3 (amended): dispatch is complete and exclusive per context once the
whitelisted `label` tag is added to the section and paragraph contexts as
an always-ignored tag: every recognized tag gets its documented action
(both spellings), and every tag outside the context's table — which for
the def-list context includes `label` — raises a `ValueError` whose
message names the offending tag. -/
theorem c3_amended :
    (∀ (f : Nat) (c : Elem) (cs : List Elem) (txt : String),
        c.tag ∉ [nsTag "label", "label", nsTag "section-title", "title",
          nsTag "para", "p", nsTag "section", "sec"] →
        psGo (f + 1) (c :: cs) txt
          = .error (.valueError ("Unknown section tag: " ++ c.tag)))
    ∧ (∀ (f : Nat) (c : Elem) (cs : List Elem) (txt : String),
        c.tag = nsTag "section-title" ∨ c.tag = "title" →
        psGo (f + 1) (c :: cs) txt = psGo f cs (txt ++ pyStr c.text ++ "\n"))
    ∧ (∀ (f : Nat) (c : Elem) (cs : List Elem) (txt : String),
        c.tag = nsTag "para" ∨ c.tag = "p" →
        psGo (f + 1) (c :: cs) txt
          = (match ppElem f c txt with
             | .ok r => psGo f cs (r ++ "\n")
             | .error e => .error e))
    ∧ (∀ (f : Nat) (c : Elem) (cs : List Elem) (txt : String),
        c.tag = nsTag "section" ∨ c.tag = "sec" →
        psGo (f + 1) (c :: cs) txt
          = (match psElem f c txt with
             | .ok r => psGo f cs r
             | .error e => .error e))
    ∧ (∀ (f : Nat) (c : Elem) (cs : List Elem) (txt : String),
        c.tag ∉ [nsTag "label", "label", nsTag "list", "list", nsTag "def-list",
          "def-list", nsTag "section-title", "title", nsTag "para", "p"] →
        ppGo (f + 1) (c :: cs) txt
          = .error (.valueError ("Unknown paragraph tag: " ++ c.tag)))
    ∧ (∀ (f : Nat) (c : Elem) (cs : List Elem) (txt : String), c.tag = nsTag "list" →
        ppGo (f + 1) (c :: cs) txt
          = ppGo f cs (txt ++ joinNl (listLines f (nsTag "para") c) ++ "\n"))
    ∧ (∀ (f : Nat) (c : Elem) (cs : List Elem) (txt : String), c.tag = "list" →
        ppGo (f + 1) (c :: cs) txt
          = ppGo f cs (txt ++ joinNl (listLines f "p" c) ++ "\n"))
    ∧ (∀ (f : Nat) (c : Elem) (cs : List Elem) (txt : String),
        c.tag = nsTag "def-list" ∨ c.tag = "def-list" →
        ppGo (f + 1) (c :: cs) txt
          = (match processDefList c txt with
             | .ok r => ppGo f cs (r ++ "\n")
             | .error e => .error e))
    ∧ (∀ (f : Nat) (c : Elem) (cs : List Elem) (txt : String),
        c.tag = nsTag "section-title" ∨ c.tag = "title" →
        ppGo (f + 1) (c :: cs) txt = ppGo f cs (txt ++ pyStr c.text ++ "\n\n"))
    ∧ (∀ (f : Nat) (c : Elem) (cs : List Elem) (txt : String),
        c.tag = nsTag "para" ∨ c.tag = "p" →
        ppGo (f + 1) (c :: cs) txt
          = (match ppElem f c txt with
             | .ok r => ppGo f cs (r ++ "\n")
             | .error e => .error e))
    ∧ (∀ (c : Elem) (cs : List Elem) (txt : String),
        c.tag ∉ [nsTag "def-term", nsTag "def-description", "def-item"] →
        dGo (c :: cs) txt = .error (.valueError ("Unknown def-list tag: " ++ c.tag)))
    ∧ (∀ (c : Elem) (cs : List Elem) (txt : String), c.tag = nsTag "def-term" →
        dGo (c :: cs) txt = dGo cs (txt ++ "\n- " ++ pyStr c.text ++ ": "))
    ∧ (∀ (c : Elem) (cs : List Elem) (txt : String), c.tag = nsTag "def-description" →
        dGo (c :: cs) txt = dGo cs (txt ++ pyStr c.text))
    ∧ (∀ (c : Elem) (cs : List Elem) (txt : String) (tm pq : Elem),
        c.tag = "def-item" → childNamed "term" c = some tm → findDefP c = some pq →
        dGo (c :: cs) txt
          = dGo cs (txt ++ "- " ++ pyStr tm.text ++ ": " ++ pyStr pq.text)) := by
  refine ⟨?_, ?_, ?_, ?_, ?_, ?_, ?_, ?_, ?_, ?_, ?_, ?_, ?_, ?_⟩
  · intro f c cs txt h
    obtain ⟨t, tx, ch⟩ := c
    simp only [List.mem_cons, List.not_mem_nil, or_false, not_or] at h
    obtain ⟨h1, h2, h3, h4, h5, h6, h7, h8⟩ := h
    simp [psGo, beq_eq_false_iff_ne.mpr h1, beq_eq_false_iff_ne.mpr h2,
      beq_eq_false_iff_ne.mpr h3, beq_eq_false_iff_ne.mpr h4, beq_eq_false_iff_ne.mpr h5,
      beq_eq_false_iff_ne.mpr h6, beq_eq_false_iff_ne.mpr h7, beq_eq_false_iff_ne.mpr h8]
  · intro f c cs txt h
    obtain ⟨t, tx, ch⟩ := c
    rcases h with h | h <;> (subst h; rfl)
  · intro f c cs txt h
    obtain ⟨t, tx, ch⟩ := c
    rcases h with h | h <;> (subst h; rfl)
  · intro f c cs txt h
    obtain ⟨t, tx, ch⟩ := c
    rcases h with h | h <;> (subst h; rfl)
  · intro f c cs txt h
    obtain ⟨t, tx, ch⟩ := c
    simp only [List.mem_cons, List.not_mem_nil, or_false, not_or] at h
    obtain ⟨h1, h2, h3, h4, h5, h6, h7, h8, h9, h10⟩ := h
    simp [ppGo, beq_eq_false_iff_ne.mpr h1, beq_eq_false_iff_ne.mpr h2,
      beq_eq_false_iff_ne.mpr h3, beq_eq_false_iff_ne.mpr h4, beq_eq_false_iff_ne.mpr h5,
      beq_eq_false_iff_ne.mpr h6, beq_eq_false_iff_ne.mpr h7, beq_eq_false_iff_ne.mpr h8,
      beq_eq_false_iff_ne.mpr h9, beq_eq_false_iff_ne.mpr h10]
  · intro f c cs txt h
    obtain ⟨t, tx, ch⟩ := c
    subst h; rfl
  · intro f c cs txt h
    obtain ⟨t, tx, ch⟩ := c
    subst h; rfl
  · intro f c cs txt h
    obtain ⟨t, tx, ch⟩ := c
    rcases h with h | h <;> (subst h; rfl)
  · intro f c cs txt h
    obtain ⟨t, tx, ch⟩ := c
    rcases h with h | h <;> (subst h; rfl)
  · intro f c cs txt h
    obtain ⟨t, tx, ch⟩ := c
    rcases h with h | h <;> (subst h; rfl)
  · intro c cs txt h
    obtain ⟨t, tx, ch⟩ := c
    simp only [List.mem_cons, List.not_mem_nil, or_false, not_or] at h
    obtain ⟨h1, h2, h3⟩ := h
    simp [dGo, dstep, beq_eq_false_iff_ne.mpr h1, beq_eq_false_iff_ne.mpr h2,
      beq_eq_false_iff_ne.mpr h3]
  · intro c cs txt h
    obtain ⟨t, tx, ch⟩ := c
    subst h; rfl
  · intro c cs txt h
    obtain ⟨t, tx, ch⟩ := c
    subst h; rfl
  · intro c cs txt tm pq h htm hpq
    obtain ⟨t, tx, ch⟩ := c
    subst h
    show (match dstep txt ⟨"def-item", tx, ch⟩ with
      | .ok t2 => dGo cs t2
      | .error e => .error e) = _
    rw [show dstep txt ⟨"def-item", tx, ch⟩
      = (match childNamed "term" ⟨"def-item", tx, ch⟩ with
         | none => .error .attributeError
         | some tm =>
           match findDefP ⟨"def-item", tx, ch⟩ with
           | none => .error .attributeError
           | some pp => .ok (txt ++ "- " ++ pyStr tm.text ++ ": " ++ pyStr pp.text))
      from rfl, htm, hpq]

/-- Witness for C3 (amended): unknown tags raise in each context, and a
recognized tag performs its documented action. -/
theorem c3_witness :
    psGo 3 [⟨"weird", none, []⟩] ""
      = .error (.valueError "Unknown section tag: weird")
    ∧ ppGo 3 [⟨"weird", none, []⟩] ""
      = .error (.valueError "Unknown paragraph tag: weird")
    ∧ dGo [⟨"label", some "L", []⟩] ""
      = .error (.valueError "Unknown def-list tag: label")
    ∧ psGo 3 [⟨"title", some "T", []⟩] "" = psGo 2 [] ("" ++ pyStr (some "T") ++ "\n") := by
  refine ⟨?_, ?_, ?_, ?_⟩
  · exact c3_amended.1 2 ⟨"weird", none, []⟩ [] "" (by decide)
  · exact c3_amended.2.2.2.2.1 2 ⟨"weird", none, []⟩ [] "" (by decide)
  · exact c3_amended.2.2.2.2.2.2.2.2.2.2.1 ⟨"label", some "L", []⟩ [] "" (by decide)
  · exact c3_amended.2.1 2 ⟨"title", some "T", []⟩ [] "" (Or.inr rfl)

/-- C4: `process` raises the ContentUnavailable `NameError` whenever the
publisher-specific root is absent — in particular on `<test></test>` for
the springer and ieee paths — and on the springer preview stub whose body
contains a `book-part` child; an Elsevier document whose namespaced
sections root holds an empty section and an empty paragraph does not raise
and completes normally. -/
theorem c4_thm :
    (∀ (s : String) (api : Api) (root : Elem),
        parseXML (processXml s) = some root →
        locateRoot ((processXml s).data.length + 1) api root = none →
        processStr s api = ([], some (.nameError "Full text unavailable!")))
    ∧ processStr "<test></test>" .springer = ([], some (.nameError "Full text unavailable!"))
    ∧ processStr "<test></test>" .ieee = ([], some (.nameError "Full text unavailable!"))
    ∧ processStr "<test><body><book-part/></body></test>" .springer
        = ([], some (.nameError "Full text unavailable!"))
    ∧ processStr c4elsdoc .elsevier = (["\n", "None\n"], none) := by
  refine ⟨?_, by rfl, by rfl, by rfl, by rfl⟩
  intro s api root hp hl
  show strAfterParse (processXml s) api (parseXML (processXml s)) = _
  rw [hp]
  show processTree ((processXml s).data.length + 1) api
      (locateRoot ((processXml s).data.length + 1) api root) = _
  rw [hl]
  rfl

/-- Witness for C4's general root-absence clause. -/
theorem c4_witness :
    processStr "<test></test>" .springer
      = ([], some (.nameError "Full text unavailable!")) :=
  c4_thm.1 "<test></test>" .springer ⟨"test", none, []⟩ (by rfl) (by rfl)

/-- C5: for a paragraph with own text `"Lorem ipsum"`, an Elsevier list
with items `"List_item1"`, `"List_item2"`, a definition list whose
processing contributes `" [def-list]"`, a nested title `"Title"` and a
nested paragraph `"Lorem ipsum"`, `_process_paragraph` with the empty
initial accumulator returns exactly
`"Lorem ipsum- List_item1 - List_item2 [def-list] Title Lorem ipsum "`:
list items are joined with newlines first, and only afterwards every run
of optional-spaces/newline/optional-spaces is collapsed to one space and a
single leading space stripped. -/
theorem c5_thm :
    (∀ txt : String, processDefList c5dl txt = .ok (txt ++ " [def-list]"))
    ∧ ppElem 10 c5para ""
        = .ok "Lorem ipsum- List_item1 - List_item2 [def-list] Title Lorem ipsum " := by
  exact ⟨fun txt => rfl, by rfl⟩

/-- C6 counterexample: the pre-filter is not idempotent — on
`"<body>a<body>b<body>"` the first pass produces `"<body>b<body>"` and the
second pass collapses it further to `"<body>"`. -/
theorem c6_counterexample :
    processXml (processXml "<body>a<body>b<body>")
      ≠ processXml "<body>a<body>b<body>" := by decide

/-- C6 (amended): the pre-filter is not idempotent on all strings, but on
every string free of markup and whitespace characters (`<`, newline,
space, non-breaking space) it is the identity, and hence idempotent. -/
theorem c6_amended :
    ∀ s : String, s.data.all (fun c => !badChar c) = true →
      processXml s = s ∧ processXml (processXml s) = processXml s := by
  intro s hs
  have h := processXml_id s hs
  refine ⟨h, ?_⟩
  rw [h]
  exact h

/-- Witness for C6 (amended) at the concrete markup-free string `"abc"`. -/
theorem c6_witness :
    "abc".data.all (fun c => !badChar c) = true
    ∧ (processXml "abc" = "abc" ∧ processXml (processXml "abc") = processXml "abc") :=
  ⟨by decide, c6_amended "abc" (by decide)⟩

/-- C7: each abstract extractor returns an empty/absent result rather than
raising when its target element is missing: Elsevier returns the absent
(`None`) result when no Dublin-Core description exists, Springer returns
the empty string when no abstract element exists, and IEEE returns the
empty string when no `./article/abstract` element exists. -/
theorem c7_thm :
    (∀ (s : String) (root : Elem),
        parseXML (processXml s) = some root →
        findDesc ((processXml s).data.length + 1) dcDesc root = none →
        getElsevierAbstract s = .ok none)
    ∧ (∀ (s : String) (root : Elem),
        parseXML (processXml s) = some root →
        findDesc ((processXml s).data.length + 1) "abstract" root = none →
        getSpringerAbstract s = .ok "")
    ∧ (∀ (s : String) (root : Elem),
        parseXML (processXml s) = some root →
        (childNamed "article" root).bind (fun a => childNamed "abstract" a) = none →
        getIeeeAbstract s = .ok (some "")) := by
  refine ⟨?_, ?_, ?_⟩
  · intro s root hp hf
    show elsAfterParse (processXml s) (parseXML (processXml s)) = _
    rw [hp]
    show elsAfterFind (findDesc ((processXml s).data.length + 1) dcDesc root) = _
    rw [hf]
    rfl
  · intro s root hp hf
    show sprAfterParse (processXml s) (parseXML (processXml s)) = _
    rw [hp]
    show sprAfterFind (processXml s)
        (findDesc ((processXml s).data.length + 1) "abstract" root) = _
    rw [hf]
    rfl
  · intro s root hp hf
    show ieeAfterParse (parseXML (processXml s)) = _
    rw [hp]
    show ieeAfterFind ((childNamed "article" root).bind (fun a => childNamed "abstract" a)) = _
    rw [hf]
    rfl

/-- Witness for C7 at the concrete document `"<test></test>"`. -/
theorem c7_witness :
    getElsevierAbstract "<test></test>" = .ok none
    ∧ getSpringerAbstract "<test></test>" = .ok ""
    ∧ getIeeeAbstract "<test></test>" = .ok (some "") :=
  ⟨c7_thm.1 "<test></test>" ⟨"test", none, []⟩ (by rfl) (by rfl),
   c7_thm.2.1 "<test></test>" ⟨"test", none, []⟩ (by rfl) (by rfl),
   c7_thm.2.2 "<test></test>" ⟨"test", none, []⟩ (by rfl) (by rfl)⟩

theorem topStep_endsNl (f : Nat) (c : Elem) (w : String)
    (h : topStep f c = .ok w) : endsNl w = true := by
  unfold topStep at h
  have happ : ∀ r : String, endsNl (r ++ "\n") = true := by
    intro r
    show ((r ++ "\n").data.getLast? == some '\n') = true
    rw [show (r ++ "\n").data = r.data ++ ['\n'] from rfl, List.getLast?_concat]
    rfl
  split at h
  · cases hE : psElem f c "" with
    | ok r =>
      rw [hE] at h
      cases h
      exact happ r
    | error e => rw [hE] at h; exact absurd h (by simp [Except.map])
  · split at h
    · cases hE : ppElem f c "" with
      | ok r =>
        rw [hE] at h
        cases h
        exact happ r
      | error e => rw [hE] at h; exact absurd h (by simp [Except.map])
    · exact absurd h (by simp)

/-- C8: `process` performs exactly one append write, each terminated by a
newline, per recognized top-level child, with `processStr` equal to the
top-level loop once the root is located and passes the availability check;
on success the number of writes equals the number of top-level children
and every write ends with a newline; and if the child after a successful
prefix raises, the loop returns exactly the prefix's writes together with
the error — no rollback. -/
theorem c8_thm :
    (∀ (s : String) (api : Api) (root r : Elem),
        parseXML (processXml s) = some root →
        locateRoot ((processXml s).data.length + 1) api root = some r →
        r.children.isEmpty = false →
        (api == .springer && (childNamed "book-part" r).isSome) = false →
        processStr s api = topGo ((processXml s).data.length + 1) r.children)
    ∧ (∀ (f : Nat) (cs : List Elem), (topGo f cs).2 = none →
        (topGo f cs).1.length = cs.length
          ∧ ∀ w ∈ (topGo f cs).1, endsNl w = true)
    ∧ (∀ (f : Nat) (cs1 : List Elem) (c : Elem) (cs2 : List Elem) (e : PyErr),
        (topGo f cs1).2 = none →
        (∀ g, topStep g c = .error e) →
        topGo f (cs1 ++ c :: cs2) = ((topGo f cs1).1, some e)) := by
  refine ⟨?_, ?_, ?_⟩
  · intro s api root r hp hl h1 h2
    show strAfterParse (processXml s) api (parseXML (processXml s)) = _
    rw [hp]
    show processTree ((processXml s).data.length + 1) api
        (locateRoot ((processXml s).data.length + 1) api root) = _
    rw [hl]
    show (if r.children.isEmpty
          || (api == Api.springer && (childNamed "book-part" r).isSome) then
        (([], some (PyErr.nameError "Full text unavailable!")) : List String × Option PyErr)
      else topGo ((processXml s).data.length + 1) r.children) = _
    rw [h1, h2]
    rfl
  · intro f cs
    induction cs generalizing f with
    | nil =>
      intro hn
      cases f with
      | zero => exact absurd hn (by simp [topGo])
      | succ g => exact ⟨rfl, by intro w hw; exact absurd hw (by simp [topGo] at hw ⊢)⟩
    | cons c cs ih =>
      intro hn
      cases f with
      | zero => exact absurd hn (by simp [topGo])
      | succ g =>
        cases hS : topStep g c with
        | error e =>
          exfalso
          rw [show topGo (g + 1) (c :: cs)
            = (match topStep g c with
               | .ok w => let r := topGo g cs; (w :: r.1, r.2)
               | .error e => ([], some e)) from rfl, hS] at hn
          exact Option.noConfusion hn
        | ok w =>
          have hun : topGo (g + 1) (c :: cs) = (w :: (topGo g cs).1, (topGo g cs).2) := by
            rw [show topGo (g + 1) (c :: cs)
              = (match topStep g c with
                 | .ok w => let r := topGo g cs; (w :: r.1, r.2)
                 | .error e => ([], some e)) from rfl, hS]
          rw [hun] at hn ⊢
          obtain ⟨hlen, hws⟩ := ih g hn
          refine ⟨by simpa using hlen, ?_⟩
          intro x hx
          rcases List.mem_cons.mp hx with hx | hx
          · subst hx; exact topStep_endsNl g c x hS
          · exact hws x hx
  · intro f cs1 c cs2 e
    induction cs1 generalizing f with
    | nil =>
      intro hn he
      cases f with
      | zero => exact absurd hn (by simp [topGo])
      | succ g =>
        rw [List.nil_append,
          show topGo (g + 1) (c :: cs2)
            = (match topStep g c with
               | .ok w => let r := topGo g cs2; (w :: r.1, r.2)
               | .error e => ([], some e)) from rfl, he g]
        rfl
    | cons d ds ih =>
      intro hn he
      cases f with
      | zero => exact absurd hn (by simp [topGo])
      | succ g =>
        cases hS : topStep g d with
        | error e2 =>
          exfalso
          rw [show topGo (g + 1) (d :: ds)
            = (match topStep g d with
               | .ok w => let r := topGo g ds; (w :: r.1, r.2)
               | .error e => ([], some e)) from rfl, hS] at hn
          exact Option.noConfusion hn
        | ok w =>
          have hds : (topGo g ds).2 = none := by
            rw [show topGo (g + 1) (d :: ds)
              = (match topStep g d with
                 | .ok w => let r := topGo g ds; (w :: r.1, r.2)
                 | .error e => ([], some e)) from rfl, hS] at hn
            exact hn
          rw [List.cons_append,
            show topGo (g + 1) (d :: (ds ++ c :: cs2))
              = (match topStep g d with
                 | .ok w => let r := topGo g (ds ++ c :: cs2); (w :: r.1, r.2)
                 | .error e => ([], some e)) from rfl, hS,
            show topGo (g + 1) (d :: ds)
              = (match topStep g d with
                 | .ok w => let r := topGo g ds; (w :: r.1, r.2)
                 | .error e => ([], some e)) from rfl, hS]
          rw [ih g hds he]

/-- Witness for C8 on `c8doc`: the loop equality through `processStr`, the
success clause on the good prefix, and the no-rollback clause at the
failing second child. -/
theorem c8_witness :
    processStr c8doc .elsevier
      = topGo ((processXml c8doc).data.length + 1) [c8sec, c8wrong]
    ∧ ((topGo 5 [c8sec]).1.length = 1 ∧ ∀ w ∈ (topGo 5 [c8sec]).1, endsNl w = true)
    ∧ topGo 5 ([c8sec] ++ c8wrong :: [])
        = ((topGo 5 [c8sec]).1, some (.valueError ("Unknown root tag: " ++ nsTag "wrong"))) := by
  refine ⟨?_, ?_, ?_⟩
  · exact c8_thm.1 c8doc .elsevier
      ⟨"test", none, [⟨nsTag "sections", none, [c8sec, c8wrong]⟩]⟩
      ⟨nsTag "sections", none, [c8sec, c8wrong]⟩ (by rfl) (by rfl) (by rfl) (by rfl)
  · exact c8_thm.2.1 5 [c8sec] (by rfl)
  · exact c8_thm.2.2 5 [c8sec] c8wrong [] (.valueError ("Unknown root tag: " ++ nsTag "wrong"))
      (by rfl) (fun g => by rfl)

/-- C9: a paragraph whose own text is absent (Python `None`) behaves
exactly as if its text were the literal four-character string `"None"`,
which is appended to the accumulator before the children are visited; in
particular an empty paragraph contributes `"None"` rather than nothing. -/
theorem c9_thm :
    (∀ (f : Nat) (t : String) (cs : List Elem) (txt : String),
        ppElem f ⟨t, none, cs⟩ txt = ppElem f ⟨t, some "None", cs⟩ txt)
    ∧ ppElem 1 ⟨nsTag "para", none, []⟩ "" = .ok "None" :=
  ⟨fun _ _ _ _ => rfl, by rfl⟩

/-- C10: on the springer and ieee paths, a present but childless `body`
element is falsy under `not root`, so `process` raises the
ContentUnavailable `NameError` exactly as if the body were absent. -/
theorem c10_thm :
    (∀ (s : String) (api : Api) (root b : Elem),
        api = .springer ∨ api = .ieee →
        parseXML (processXml s) = some root →
        locateRoot ((processXml s).data.length + 1) api root = some b →
        b.children = [] →
        processStr s api = ([], some (.nameError "Full text unavailable!")))
    ∧ processStr "<test><body></body></test>" .springer
        = ([], some (.nameError "Full text unavailable!"))
    ∧ processStr "<test><body></body></test>" .ieee
        = ([], some (.nameError "Full text unavailable!")) := by
  refine ⟨?_, by rfl, by rfl⟩
  intro s api root b _ hp hl hb
  show strAfterParse (processXml s) api (parseXML (processXml s)) = _
  rw [hp]
  show processTree ((processXml s).data.length + 1) api
      (locateRoot ((processXml s).data.length + 1) api root) = _
  rw [hl]
  show (if b.children.isEmpty
        || (api == Api.springer && (childNamed "book-part" b).isSome) then
      (([], some (PyErr.nameError "Full text unavailable!")) : List String × Option PyErr)
    else topGo ((processXml s).data.length + 1) b.children) = _
  rw [hb]
  rfl

/-- Witness for C10's general clause at a concrete childless body. -/
theorem c10_witness :
    processStr "<test><body></body></test>" .ieee
      = ([], some (.nameError "Full text unavailable!")) :=
  c10_thm.1 "<test><body></body></test>" .ieee ⟨"test", none, [⟨"body", none, []⟩]⟩
    ⟨"body", none, []⟩ (Or.inr rfl) (by rfl) (by rfl) rfl
